import Mathlib

/-!
Verification of the accessible-select combobox widget.

The TypeScript source (src/components/Select.tsx, src/App.tsx, the
useDebounce hook and the query module) is shallowly embedded below:
strings become lists of characters, React state becomes an explicit
record that each event handler transforms, and the `useEffect` resync
step becomes an explicit function applied after a handler runs.
-/

namespace AccessibleSelect

/-- JavaScript strings, modelled as lists of characters. -/
abbrev Str := List Char

/-- Convenience conversion from a Lean string literal. -/
def str (s : String) : Str := s.data

/-- Model of `String.prototype.toLowerCase`. -/
def toLowerStr (s : Str) : Str := s.map Char.toLower

/-- `pat` is a prefix of `base` (helper for the `includes` model). -/
def isPrefixL : Str → Str → Bool
  | [], _ => true
  | _ :: _, [] => false
  | c :: cs, d :: ds => c == d && isPrefixL cs ds

/-- Model of `base.includes(pat)`: `pat` occurs contiguously in `base`. -/
def containsL : Str → Str → Bool
  | [], pat => isPrefixL pat []
  | b :: bs, pat => isPrefixL pat (b :: bs) || containsL bs pat

theorem isPrefixL_iff (pat base : Str) : isPrefixL pat base = true ↔ pat <+: base := by
  induction pat generalizing base with
  | nil => simp [isPrefixL]
  | cons c cs ih =>
    cases base with
    | nil => simp [isPrefixL]
    | cons d ds =>
      simp [isPrefixL, List.cons_prefix_cons, ih]

theorem containsL_iff (base pat : Str) : containsL base pat = true ↔ pat <:+: base := by
  induction base with
  | nil => simp [containsL, isPrefixL_iff, List.prefix_nil, List.infix_nil]
  | cons b bs ih =>
    simp [containsL, isPrefixL_iff, ih, List.infix_cons_iff]

/-- `export type SelectOption = { label: string; value: string }`. -/
structure SelectOption where
  label : Str
  value : Str
deriving DecidableEq, Repr

/-- A JavaScript number restricted to the values the focused-option index
can actually take: an integer, or `NaN` (the result of `x % 0`). -/
inductive JsNum where
  | int (i : Int)
  | nan
deriving DecidableEq, Repr

/-- JavaScript addition of an integer constant to a `JsNum` (`NaN` absorbs). -/
def JsNum.add : JsNum → Int → JsNum
  | .int i, j => .int (i + j)
  | .nan, _ => .nan

/-- JavaScript `%` on a `JsNum` dividend and a nonnegative integer divisor:
truncated remainder (sign follows the dividend), and `x % 0` is `NaN`. -/
def JsNum.rem : JsNum → Nat → JsNum
  | .nan, _ => .nan
  | .int i, n => if n = 0 then .nan else .int (Int.tmod i n)

/-- JavaScript array indexing `l[i]` with a `JsNum` index: `undefined`
(here `none`) for `NaN`, negative, or out-of-range indices. -/
def JsNum.index (l : List SelectOption) : JsNum → Option SelectOption
  | .nan => none
  | .int i => if 0 ≤ i then l.get? i.toNat else none

/-- The four members of `specialKeys` in `handleKeyDown`, plus any other key. -/
inductive Key where
  | arrowUp
  | arrowDown
  | enter
  | escape
  | other (key : Str)
deriving DecidableEq, Repr

/-- `isSpecialKey` from `handleKeyDown`. -/
def isSpecialKey : Key → Bool
  | .other _ => false
  | _ => true

/-- The React state of one `Select` instance:
`inputValue` (lifted to the caller but set only through `setInputValue`),
`showOptions`, `shouldUpdateInput`, `currentFocusedOption`, `selectedOption`.
`selectedOption` is `none` when it is JavaScript `undefined`
(its TypeScript type is non-optional but `options[0]` can be `undefined`). -/
structure SelectState where
  inputValue : Str
  showOptions : Bool
  shouldUpdateInput : Bool
  currentFocusedOption : JsNum
  selectedOption : Option SelectOption
deriving DecidableEq, Repr

/-- The destructuring default `values = []`: an undefined domain-value
list is replaced by the empty list. -/
def valuesOrDefault {T : Type} (values : Option (List T)) : List T :=
  values.getD []

/-- `const options = values.map(toOption)` (after the `values = []` default). -/
def selectOptions {T : Type} (values : Option (List T)) (toOption : T → SelectOption) :
    List SelectOption :=
  (valuesOrDefault values).map toOption

/-- `includesSubstring` from the `filteredOptions` memo:
`(compared) => (base) => base.toLowerCase().includes(compared.toLowerCase())`. -/
def includesSubstring (compared base : Str) : Bool :=
  containsL (toLowerStr base) (toLowerStr compared)

/-- The `filteredOptions` memo. The `!options` disjunct of the source's
guard is dropped: `options` is always an array after the `values = []`
default, so `!options` is always false. `option.value ?? ''` is `option.value`
because `value` is a total string field. -/
def filteredOptions (inputValue : Str) (options : List SelectOption) :
    List SelectOption :=
  if inputValue.length = 0 then options
  else options.filter fun option =>
    includesSubstring inputValue option.label || includesSubstring inputValue option.value

/-- `selectedOption?.label ?? ''`. -/
def labelOf (o : Option SelectOption) : Str :=
  (o.map SelectOption.label).getD []

/-- `handleOptionClick`. -/
def handleOptionClick (option : SelectOption) (s : SelectState) : SelectState :=
  { s with selectedOption := some option, shouldUpdateInput := true }

/-- `handleFocus`: clears the input text and opens the dropdown. -/
def handleFocus (s : SelectState) : SelectState :=
  { s with inputValue := [], showOptions := true }

/-- `handleChange`: `setInputValue(e.target.value)`. -/
def handleChange (text : Str) (s : SelectState) : SelectState :=
  { s with inputValue := text }

/-- Result of `handleKeyDown`: the updated state plus whether
`e.preventDefault()` was called. -/
structure KeyResult where
  state : SelectState
  preventDefault : Bool
deriving DecidableEq, Repr

/-- The `switch (e.key)` body of `handleKeyDown`, reached only when the
dropdown is open. The `other` case is the `checkExhaustive` branch,
unreachable because of the `isSpecialKey` guard. -/
def handleSpecialKey (options : List SelectOption) (k : Key) (s : SelectState) :
    KeyResult :=
  let filtered := filteredOptions s.inputValue options
  match k with
  | .escape => ⟨{ s with shouldUpdateInput := true }, false⟩
  | .arrowDown =>
      let next := (s.currentFocusedOption.add 1).rem filtered.length
      ⟨{ s with currentFocusedOption := next }, false⟩
  | .arrowUp =>
      let next :=
        (s.currentFocusedOption.add ((filtered.length : Int) - 1)).rem filtered.length
      ⟨{ s with currentFocusedOption := next }, false⟩
  | .enter =>
      if s.currentFocusedOption = JsNum.int (-1) then ⟨s, false⟩
      else
        let committed :=
          match JsNum.index filtered s.currentFocusedOption with
          | some o => some o
          | none => s.selectedOption
        ⟨{ s with selectedOption := committed, shouldUpdateInput := true }, true⟩
  | .other _ => ⟨s, false⟩

/-- `handleKeyDown`. The source's `!options` guard is dropped (always
false after the `values = []` default). `prev - 1 + filteredOptions.length`
is modelled as adding `filteredOptions.length - 1` over `Int`. -/
def handleKeyDown (options : List SelectOption) (k : Key) (s : SelectState) :
    KeyResult :=
  if !(isSpecialKey k) then ⟨s, false⟩
  else if !s.showOptions then
    if k = .escape then ⟨s, false⟩
    else ⟨{ s with showOptions := true }, false⟩
  else handleSpecialKey options k s

/-- `handleBlur`'s wrapped body (runs after the 150ms debounce). -/
def handleBlurBody (s : SelectState) : SelectState :=
  if s.shouldUpdateInput then s else { s with shouldUpdateInput := true }

/-- `handleClickOutside` from the document-level listener effect.
`targetInside` is `inputRef.current?.contains(e.target)`. -/
def handleClickOutside (targetInside : Bool) (s : SelectState) : SelectState :=
  if targetInside then s
  else { s with showOptions := false, shouldUpdateInput := true }

/-- `setCurrentFocusedOption(index)` from an option button's `onMouseEnter`. -/
def handleMouseEnter (index : Nat) (s : SelectState) : SelectState :=
  { s with currentFocusedOption := .int index }

/-- The resync effect: when `shouldUpdateInput` is set, write the selected
option's label into the input, clear the flag, close the dropdown and
reset the focused index to `-1`; otherwise do nothing. -/
def runResync (s : SelectState) : SelectState :=
  if !s.shouldUpdateInput then s
  else
    { s with
      inputValue := labelOf s.selectedOption,
      shouldUpdateInput := false,
      showOptions := false,
      currentFocusedOption := .int (-1) }

/-- The initial `selectedOption` state:
`initialValue ? toOption(initialValue) : options[0]`. JavaScript
truthiness of a present generic value is passed in as `truthy`;
an absent (`undefined`) `initialValue` is falsy. -/
def initSelectedOption {T : Type} (truthy : T → Bool) (initialValue : Option T)
    (toOption : T → SelectOption) (options : List SelectOption) :
    Option SelectOption :=
  match initialValue with
  | some v => if truthy v then some (toOption v) else options.head?
  | none => options.head?

/-- The component's initial state: dropdown closed, `shouldUpdateInput`
starts `true`, focused index `-1`, `inputValue` whatever the caller
currently holds. -/
def initState {T : Type} (inputValue : Str) (truthy : T → Bool)
    (initialValue : Option T) (toOption : T → SelectOption)
    (options : List SelectOption) : SelectState :=
  { inputValue := inputValue
    showOptions := false
    shouldUpdateInput := true
    currentFocusedOption := .int (-1)
    selectedOption := initSelectedOption truthy initialValue toOption options }

/-- The `onOptionSelected` effect body, given that a callback was supplied:
`none` means the callback is not invoked (no selected option);
`some r` means it is invoked with `r` (`r = none` is `undefined`).
The source's `!values` guard is dropped: after the `values = []` default,
`values` is always an array, and `![]` is false. -/
def onOptionSelectedEffect {T : Type} (values : List T) (toOption : T → SelectOption)
    (selectedOption : Option SelectOption) : Option (Option T) :=
  match selectedOption with
  | none => none
  | some sel => some (values.find? fun value => (toOption value).value == sel.value)

/-- One row of the rendered dropdown list. -/
inductive Row where
  | loading
  | optionRow (option : SelectOption) (focused : Bool)
  | noOptions
deriving DecidableEq, Repr

/-- `index === currentFocusedOption` for the `aria-selected` attribute
(`NaN` compares unequal to everything). -/
def focusedAt (index : Nat) : JsNum → Bool
  | .int j => j == (index : Int)
  | .nan => false

/-- The rows of the open dropdown's `<ul>`, in render order:
the loading placeholder when `isLoading`, then one row per filtered
option when there are any, then the "no options" placeholder when the
filtered list is empty and not loading. -/
def dropdownRows (isLoading : Bool) (filtered : List SelectOption)
    (currentFocusedOption : JsNum) : List Row :=
  (if isLoading then [Row.loading] else []) ++
  (if 0 < filtered.length then
      filtered.enum.map fun p => Row.optionRow p.2 (focusedAt p.1 currentFocusedOption)
    else []) ++
  (if filtered.length = 0 && !isLoading then [Row.noOptions] else [])

/-!
Model of the `useDebounce` hook. A wrapper instance owns one mutable
slot `debounceRef`. `live` is the set of timers scheduled with the
runtime's `setTimeout` that have been neither cleared nor fired;
`nextId` generates fresh timer ids. -/

/-- State of one debounce wrapper together with the timer queue. -/
structure DebounceState (α : Type) where
  nextId : Nat
  debounceRef : Option Nat
  live : List (Nat × α)
deriving DecidableEq, Repr

/-- Before the first invocation: empty ref, no timers. -/
def initDebounce {α : Type} : DebounceState α :=
  { nextId := 0, debounceRef := none, live := [] }

/-- `clearTimeout(id)`: the timer with that id will never fire. -/
def clearTimeoutD {α : Type} (live : List (Nat × α)) (id : Nat) : List (Nat × α) :=
  live.filter fun p => p.1 ≠ id

/-- One invocation of the function returned by `debounce(callback, delay)`:
`if (debounceRef.current) clearTimeout(debounceRef.current);` then
`setTimeout` a new call and store its handle in `debounceRef.current`. -/
def debouncedCall {α : Type} (s : DebounceState α) (arg : α) : DebounceState α :=
  let cleared :=
    match s.debounceRef with
    | some id => clearTimeoutD s.live id
    | none => s.live
  { nextId := s.nextId + 1
    debounceRef := some s.nextId
    live := cleared ++ [(s.nextId, arg)] }

/-- The runtime fires timer `id` (its delay elapsed): if it is still
scheduled, it is consumed and its captured argument is delivered to the
callback; a cleared or unknown timer delivers nothing. -/
def fireTimer {α : Type} (s : DebounceState α) (id : Nat) :
    DebounceState α × Option α :=
  match s.live.find? (fun p => p.1 == id) with
  | some p => ({ s with live := clearTimeoutD s.live id }, some p.2)
  | none => (s, none)

/-- Events a wrapper instance can observe, in delivery order. -/
inductive DEvent (α : Type) where
  | invoke (arg : α)
  | fire (id : Nat)
deriving DecidableEq, Repr

/-- Run a sequence of events against a wrapper state. -/
def runDebounce {α : Type} : DebounceState α → List (DEvent α) → DebounceState α
  | s, [] => s
  | s, .invoke a :: es => runDebounce (debouncedCall s a) es
  | s, .fire id :: es => runDebounce (fireTimer s id).1 es

/-- The argument of the most recent `invoke` event in a trace, if any. -/
def lastInvokeArg {α : Type} : List (DEvent α) → Option α
  | [] => none
  | .invoke a :: es =>
      match lastInvokeArg es with
      | some b => some b
      | none => some a
  | .fire _ :: es => lastInvokeArg es

/-- Invariant of a wrapper: at most one timer is pending, and any pending
timer is the one whose handle sits in `debounceRef`. -/
def DebounceInv {α : Type} (s : DebounceState α) : Prop :=
  s.live.length ≤ 1 ∧ ∀ p ∈ s.live, s.debounceRef = some p.1

theorem debounceInv_init {α : Type} : DebounceInv (initDebounce (α := α)) := by
  constructor
  · simp [initDebounce]
  · intro p hp; simp [initDebounce] at hp

/-- Under the invariant, an invocation leaves exactly the newly scheduled
timer pending: the previous pending timer (if any) was cleared first. -/
theorem debouncedCall_live {α : Type} (s : DebounceState α) (a : α)
    (h : DebounceInv s) : (debouncedCall s a).live = [(s.nextId, a)] := by
  obtain ⟨hlen, href⟩ := h
  unfold debouncedCall
  cases hr : s.debounceRef with
  | none =>
      cases hl : s.live with
      | nil => simp [hl]
      | cons p ps =>
          have := href p (by simp [hl])
          rw [hr] at this
          exact absurd this (by simp)
  | some id =>
      cases hl : s.live with
      | nil => simp [clearTimeoutD, hl]
      | cons p ps =>
          have hp := href p (by simp [hl])
          rw [hr] at hp
          have hid : p.1 = id := (Option.some_inj.mp hp).symm
          have hps : ps = [] := by
            rw [hl] at hlen
            simp only [List.length_cons] at hlen
            exact List.length_eq_zero.mp (by omega)
          subst hps
          simp [clearTimeoutD, hl, hid]

theorem debounceInv_call {α : Type} (s : DebounceState α) (a : α)
    (h : DebounceInv s) : DebounceInv (debouncedCall s a) := by
  constructor
  · rw [debouncedCall_live s a h]; simp
  · intro p hp
    rw [debouncedCall_live s a h] at hp
    simp at hp
    simp [debouncedCall, hp]

theorem fireTimer_live_sub {α : Type} (s : DebounceState α) (id : Nat) :
    ∀ p ∈ (fireTimer s id).1.live, p ∈ s.live := by
  intro p hp
  unfold fireTimer at hp
  cases hf : s.live.find? (fun p => p.1 == id) with
  | none => rw [hf] at hp; exact hp
  | some q =>
      rw [hf] at hp
      simp [clearTimeoutD] at hp
      exact hp.1

theorem debounceInv_fire {α : Type} (s : DebounceState α) (id : Nat)
    (h : DebounceInv s) : DebounceInv (fireTimer s id).1 := by
  obtain ⟨hlen, href⟩ := h
  constructor
  · unfold fireTimer
    cases hf : s.live.find? (fun p => p.1 == id) with
    | none => exact hlen
    | some q =>
        simp only
        calc (clearTimeoutD s.live id).length ≤ s.live.length :=
              List.length_filter_le _ _
          _ ≤ 1 := hlen
  · intro p hp
    have hps : p ∈ s.live := fireTimer_live_sub s id p hp
    have : (fireTimer s id).1.debounceRef = s.debounceRef := by
      unfold fireTimer
      cases hf : s.live.find? (fun p => p.1 == id) <;> simp
    rw [this]
    exact href p hps

/-- Main induction: running any event trace preserves the invariant, and
every timer still pending afterwards carries the argument of the trace's
most recent invocation (or was already pending and no invocation occurred). -/
theorem runDebounce_pending {α : Type} (evs : List (DEvent α)) :
    ∀ s : DebounceState α, DebounceInv s →
      DebounceInv (runDebounce s evs) ∧
        ∀ p ∈ (runDebounce s evs).live,
          lastInvokeArg evs = some p.2 ∨ (lastInvokeArg evs = none ∧ p ∈ s.live) := by
  induction evs with
  | nil =>
      intro s h
      exact ⟨h, fun p hp => Or.inr ⟨rfl, hp⟩⟩
  | cons e es ih =>
      intro s h
      cases e with
      | invoke a =>
          have h1 := debounceInv_call s a h
          obtain ⟨hinv, hlast⟩ := ih (debouncedCall s a) h1
          refine ⟨hinv, fun p hp => ?_⟩
          rcases hlast p hp with hsome | ⟨hnone, hmem⟩
          · left
            simp [runDebounce, lastInvokeArg, hsome]
          · left
            rw [debouncedCall_live s a h] at hmem
            simp at hmem
            simp [lastInvokeArg, hnone, hmem]
      | fire id =>
          have h1 := debounceInv_fire s id h
          obtain ⟨hinv, hlast⟩ := ih (fireTimer s id).1 h1
          refine ⟨hinv, fun p hp => ?_⟩
          rcases hlast p hp with hsome | ⟨hnone, hmem⟩
          · left; simpa [lastInvokeArg] using hsome
          · right
            exact ⟨by simpa [lastInvokeArg] using hnone,
              fireTimer_live_sub s id p hmem⟩

/-- A successful `Array.prototype.find` locates the first match: the list
splits around the found element, with no match before it. -/
theorem find?_first {α : Type} (p : α → Bool) :
    ∀ {l : List α} {b : α}, l.find? p = some b →
      ∃ l₁ l₂, l = l₁ ++ b :: l₂ ∧ (∀ a ∈ l₁, p a = false) ∧ p b = true := by
  intro l
  induction l with
  | nil => intro b h; simp [List.find?] at h
  | cons a as ih =>
      intro b h
      by_cases hp : p a = true
      · rw [List.find?_cons_of_pos _ hp] at h
        refine ⟨[], as, ?_, ?_, ?_⟩
        · simp [Option.some_inj.mp h]
        · intro x hx; simp at hx
        · rw [Option.some_inj.mp h] at hp; exact hp
      · rw [List.find?_cons_of_neg _ (by simpa using hp)] at h
        obtain ⟨l₁, l₂, hsplit, hall, hb⟩ := ih h
        refine ⟨a :: l₁, l₂, by simp [hsplit], ?_, hb⟩
        intro x hx
        rcases List.mem_cons.mp hx with hxa | hxl
        · rw [hxa]; simpa using hp
        · exact hall x hxl

/-- C1: arrow-key navigation with an empty filtered list is claimed to be a
no-op with no modulo by zero computed. The code has no such guard: with the
dropdown open and `filteredOptions.length = 0`, ArrowDown stores
`(-1 + 1) % 0 = NaN` as the focused index, and ArrowUp stores
`(-1 - 1 + 0) % 0 = NaN`; neither leaves the index unchanged. -/
theorem claim_C1_empty_list_arrow_nan :
    (handleKeyDown [] Key.arrowDown
        ⟨[], true, false, JsNum.int (-1), none⟩).state.currentFocusedOption
      = JsNum.nan ∧
    (handleKeyDown [] Key.arrowUp
        ⟨[], true, false, JsNum.int (-1), none⟩).state.currentFocusedOption
      = JsNum.nan ∧
    JsNum.nan ≠ JsNum.int (-1) := by
  decide

/-- C2 (counterexample): the focused index is not reset when the filtered
list is recomputed. From a fresh widget over options "aa", "ab", "bb":
resync on mount, focus, mouse-enter row 2, then type "bb". The filtered
list now has length 1 but the focused index is still 2, outside
`[-1, filteredOptions.length - 1]`. -/
theorem claim_C2_counterexample :
    (handleChange (str "bb")
        (handleMouseEnter 2
          (handleFocus
            (runResync
              (initState (str "")
                (fun _ => false) none id
                [⟨str "aa", str "aa"⟩, ⟨str "ab", str "ab"⟩,
                  ⟨str "bb", str "bb"⟩]))))).currentFocusedOption
      = JsNum.int 2 ∧
    (filteredOptions (str "bb")
        [⟨str "aa", str "aa"⟩, ⟨str "ab", str "ab"⟩,
          ⟨str "bb", str "bb"⟩]).length = 1 ∧
    ¬ ((2 : Int) ≤ (1 : Int) - 1) := by
  decide

/-- C2 (amended): the focused index is reset to `-1`, and the dropdown
closed, whenever the resync effect runs — in particular on every path that
closes the dropdown, including an outside click; it is NOT reset when the
filtered list is recomputed, so a text change can leave it out of range. -/
theorem claim_C2_resync_resets_focus (s : SelectState) :
    (s.shouldUpdateInput = true →
      (runResync s).currentFocusedOption = JsNum.int (-1) ∧
        (runResync s).showOptions = false ∧
        (runResync s).shouldUpdateInput = false) ∧
    ((runResync (handleClickOutside false s)).currentFocusedOption
        = JsNum.int (-1) ∧
      (runResync (handleClickOutside false s)).showOptions = false) := by
  constructor
  · intro h
    simp [runResync, h]
  · simp [runResync, handleClickOutside]

theorem claim_C2_resync_resets_focus_witness :
    (runResync ⟨str "x", true, true, JsNum.int 5, none⟩).currentFocusedOption
        = JsNum.int (-1) ∧
      (runResync ⟨str "x", true, true, JsNum.int 5, none⟩).showOptions = false ∧
      (runResync ⟨str "x", true, true, JsNum.int 5, none⟩).shouldUpdateInput = false :=
  (claim_C2_resync_resets_focus ⟨str "x", true, true, JsNum.int 5, none⟩).1 rfl

/-- C3: with empty input text the filter returns the full mapped option
list unchanged; with non-empty text it keeps exactly the options whose
lowercased label or lowercased value contains the lowercased input text as
a contiguous substring, preserving the original relative order (the result
is a sublist of the mapped option list). -/
theorem claim_C3_filtering {T : Type} (values : List T) (toOption : T → SelectOption)
    (inputValue : Str) :
    (inputValue = [] →
      filteredOptions inputValue (selectOptions (some values) toOption) =
        selectOptions (some values) toOption) ∧
    (inputValue ≠ [] →
      List.Sublist (filteredOptions inputValue (selectOptions (some values) toOption))
          (selectOptions (some values) toOption) ∧
        ∀ o, o ∈ filteredOptions inputValue (selectOptions (some values) toOption) ↔
          (o ∈ selectOptions (some values) toOption ∧
            (toLowerStr inputValue <:+: toLowerStr o.label ∨
              toLowerStr inputValue <:+: toLowerStr o.value))) := by
  constructor
  · intro h
    subst h
    simp [filteredOptions]
  · intro h
    have hlen : ¬ inputValue.length = 0 := by
      simpa [List.length_eq_zero] using h
    constructor
    · rw [filteredOptions, if_neg hlen]
      exact List.filter_sublist _
    · intro o
      rw [filteredOptions, if_neg hlen]
      simp [List.mem_filter, includesSubstring, containsL_iff]

theorem claim_C3_filtering_witness :
    (filteredOptions (str "")
        (selectOptions (some [⟨str "Cat", str "cat"⟩]) id) =
      selectOptions (some [⟨str "Cat", str "cat"⟩]) id) ∧
    (List.Sublist
        (filteredOptions (str "ca") (selectOptions (some [⟨str "Cat", str "cat"⟩]) id))
        (selectOptions (some [⟨str "Cat", str "cat"⟩]) id) ∧
      ∀ o, o ∈ filteredOptions (str "ca") (selectOptions (some [⟨str "Cat", str "cat"⟩]) id) ↔
        (o ∈ selectOptions (some [⟨str "Cat", str "cat"⟩]) id ∧
          (toLowerStr (str "ca") <:+: toLowerStr o.label ∨
            toLowerStr (str "ca") <:+: toLowerStr o.value))) :=
  ⟨(claim_C3_filtering [⟨str "Cat", str "cat"⟩] id (str "")).1 rfl,
    (claim_C3_filtering [⟨str "Cat", str "cat"⟩] id (str "ca")).2 (by decide)⟩

/-- C4 (counterexample): while loading with a non-empty filtered list, the
dropdown renders an option row in addition to the loading placeholder, so
the loading placeholder does not replace the option rows. -/
theorem claim_C4_counterexample :
    Row.optionRow ⟨str "a", str "a"⟩ false ∈
      dropdownRows true [⟨str "a", str "a"⟩] (JsNum.int (-1)) := by
  decide

/-- C4 (amended): while loading, the open dropdown always renders the
loading placeholder first and never renders the "no options" placeholder;
option rows are still rendered after the loading placeholder whenever the
filtered list is non-empty, and with an empty filtered list the loading
placeholder is the only row. -/
theorem claim_C4_loading_rows (filtered : List SelectOption) (focus : JsNum) :
    dropdownRows true filtered focus =
      Row.loading ::
        filtered.enum.map (fun p => Row.optionRow p.2 (focusedAt p.1 focus)) ∧
    Row.noOptions ∉ dropdownRows true filtered focus ∧
    (filtered = [] → dropdownRows true filtered focus = [Row.loading]) := by
  have hrows : dropdownRows true filtered focus =
      Row.loading ::
        filtered.enum.map (fun p => Row.optionRow p.2 (focusedAt p.1 focus)) := by
    unfold dropdownRows
    cases filtered with
    | nil => simp
    | cons a as => simp
  refine ⟨hrows, ?_, ?_⟩
  · rw [hrows]
    simp only [List.mem_cons, List.mem_map]
    rintro (h | ⟨p, _, h⟩) <;> exact absurd h (by simp)
  · intro h
    subst h
    rw [hrows]
    simp

theorem claim_C4_loading_rows_witness :
    dropdownRows true ([] : List SelectOption) JsNum.nan = [Row.loading] :=
  (claim_C4_loading_rows [] JsNum.nan).2.2 rfl

/-- C5: with the dropdown open, committing an option — Enter with the
focused index pointing at row `i` of the filtered list (which calls
`preventDefault`, suppressing form submission), or a click on an option
row — makes that option the selected option, and the resync effect then
writes its label into the input text and closes the dropdown. -/
theorem claim_C5_commit (options : List SelectOption) (s : SelectState)
    (o oc : SelectOption) (i : Nat)
    (hopen : s.showOptions = true)
    (hfoc : s.currentFocusedOption = JsNum.int i)
    (hget : (filteredOptions s.inputValue options).get? i = some o)
    (_hoc : oc ∈ filteredOptions s.inputValue options) :
    (handleKeyDown options Key.enter s).preventDefault = true ∧
    (runResync (handleKeyDown options Key.enter s).state).selectedOption = some o ∧
    (runResync (handleKeyDown options Key.enter s).state).inputValue = o.label ∧
    (runResync (handleKeyDown options Key.enter s).state).showOptions = false ∧
    (runResync (handleOptionClick oc s)).selectedOption = some oc ∧
    (runResync (handleOptionClick oc s)).inputValue = oc.label ∧
    (runResync (handleOptionClick oc s)).showOptions = false := by
  have hne : ¬ (JsNum.int (i : Int) = JsNum.int (-1)) := by
    simp only [JsNum.int.injEq]
    omega
  have hstep : handleSpecialKey options Key.enter s =
      ⟨{ s with selectedOption := some o, shouldUpdateInput := true }, true⟩ := by
    simp only [handleSpecialKey, hfoc, if_neg hne, JsNum.index, Int.natCast_nonneg,
      if_true, Int.toNat_natCast, hget]
  have hkd : handleKeyDown options Key.enter s = handleSpecialKey options Key.enter s := by
    simp [handleKeyDown, isSpecialKey, hopen]
  rw [hkd, hstep]
  simp [runResync, labelOf, handleOptionClick]

theorem claim_C5_commit_witness :
    (handleKeyDown [⟨str "cat", str "cat"⟩] Key.enter
        ⟨str "ca", true, false, JsNum.int 0, none⟩).preventDefault = true ∧
    (runResync (handleKeyDown [⟨str "cat", str "cat"⟩] Key.enter
        ⟨str "ca", true, false, JsNum.int 0, none⟩).state).selectedOption
      = some ⟨str "cat", str "cat"⟩ ∧
    (runResync (handleKeyDown [⟨str "cat", str "cat"⟩] Key.enter
        ⟨str "ca", true, false, JsNum.int 0, none⟩).state).inputValue
      = SelectOption.label ⟨str "cat", str "cat"⟩ ∧
    (runResync (handleKeyDown [⟨str "cat", str "cat"⟩] Key.enter
        ⟨str "ca", true, false, JsNum.int 0, none⟩).state).showOptions = false ∧
    (runResync (handleOptionClick ⟨str "cat", str "cat"⟩
        ⟨str "ca", true, false, JsNum.int 0, none⟩)).selectedOption
      = some ⟨str "cat", str "cat"⟩ ∧
    (runResync (handleOptionClick ⟨str "cat", str "cat"⟩
        ⟨str "ca", true, false, JsNum.int 0, none⟩)).inputValue
      = SelectOption.label ⟨str "cat", str "cat"⟩ ∧
    (runResync (handleOptionClick ⟨str "cat", str "cat"⟩
        ⟨str "ca", true, false, JsNum.int 0, none⟩)).showOptions = false :=
  claim_C5_commit [⟨str "cat", str "cat"⟩]
    ⟨str "ca", true, false, JsNum.int 0, none⟩
    ⟨str "cat", str "cat"⟩ ⟨str "cat", str "cat"⟩ 0
    rfl rfl (by decide) (by decide)

/-- C6: Escape with the dropdown open sets `shouldUpdateInput`, so the
resync effect restores the input text to the selected option's label
(empty when none), closes the dropdown and leaves the selection unchanged;
Escape with the dropdown closed returns before any state update. -/
theorem claim_C6_escape (options : List SelectOption) (s : SelectState) :
    (s.showOptions = true →
      (runResync (handleKeyDown options Key.escape s).state).inputValue
          = labelOf s.selectedOption ∧
        (runResync (handleKeyDown options Key.escape s).state).showOptions = false ∧
        (runResync (handleKeyDown options Key.escape s).state).selectedOption
          = s.selectedOption) ∧
    (s.showOptions = false → handleKeyDown options Key.escape s = ⟨s, false⟩) := by
  constructor
  · intro h
    simp [handleKeyDown, isSpecialKey, h, handleSpecialKey, runResync, labelOf]
  · intro h
    simp [handleKeyDown, isSpecialKey, h]

theorem claim_C6_escape_witness :
    ((runResync (handleKeyDown [] Key.escape
          ⟨str "q", true, false, JsNum.int 0, some ⟨str "cat", str "cat"⟩⟩).state).inputValue
        = labelOf (some ⟨str "cat", str "cat"⟩) ∧
      (runResync (handleKeyDown [] Key.escape
          ⟨str "q", true, false, JsNum.int 0, some ⟨str "cat", str "cat"⟩⟩).state).showOptions
        = false ∧
      (runResync (handleKeyDown [] Key.escape
          ⟨str "q", true, false, JsNum.int 0, some ⟨str "cat", str "cat"⟩⟩).state).selectedOption
        = some ⟨str "cat", str "cat"⟩) ∧
    handleKeyDown [] Key.escape ⟨str "q", false, false, JsNum.int (-1), none⟩
      = ⟨⟨str "q", false, false, JsNum.int (-1), none⟩, false⟩ :=
  ⟨(claim_C6_escape []
      ⟨str "q", true, false, JsNum.int 0, some ⟨str "cat", str "cat"⟩⟩).1 rfl,
    (claim_C6_escape [] ⟨str "q", false, false, JsNum.int (-1), none⟩).2 rfl⟩

/-- C7: whenever a selected option is present, the effect reports the first
domain value whose mapped option has the selected option's value
identifier, and reports `undefined` exactly when no value matches. -/
theorem claim_C7_selection_resolution {T : Type} (values : List T)
    (toOption : T → SelectOption) (sel : SelectOption) :
    ∃ r : Option T,
      onOptionSelectedEffect values toOption (some sel) = some r ∧
        ((r = none ∧ ∀ v ∈ values, (toOption v).value ≠ sel.value) ∨
          (∃ v l₁ l₂, r = some v ∧ values = l₁ ++ v :: l₂ ∧
            (toOption v).value = sel.value ∧
            ∀ u ∈ l₁, (toOption u).value ≠ sel.value)) := by
  refine ⟨values.find? (fun value => (toOption value).value == sel.value), rfl, ?_⟩
  cases hf : values.find? (fun value => (toOption value).value == sel.value) with
  | none =>
      left
      refine ⟨rfl, ?_⟩
      intro v hv
      have h := List.find?_eq_none.mp hf v hv
      simpa using h
  | some v =>
      right
      obtain ⟨l₁, l₂, hsplit, hall, hb⟩ := find?_first _ hf
      refine ⟨v, l₁, l₂, rfl, hsplit, by simpa using hb, ?_⟩
      intro u hu
      simpa using hall u hu

/-- C8: an undefined domain-value list is normalized to the empty list by
the `values = []` destructuring default, so every derived computation —
the option list, filtering, keyboard handling, selection resolution, the
initial state — coincides with the `values = []` behavior, and all of
these are total functions (no exception). -/
theorem claim_C8_undefined_values {T : Type} (toOption : T → SelectOption)
    (text : Str) (k : Key) (s : SelectState) (sel : Option SelectOption)
    (truthy : T → Bool) (initialValue : Option T) (inputValue0 : Str) :
    selectOptions (none : Option (List T)) toOption
        = selectOptions (some []) toOption ∧
      filteredOptions text (selectOptions (none : Option (List T)) toOption)
        = filteredOptions text (selectOptions (some []) toOption) ∧
      handleKeyDown (selectOptions (none : Option (List T)) toOption) k s
        = handleKeyDown (selectOptions (some []) toOption) k s ∧
      onOptionSelectedEffect (valuesOrDefault (none : Option (List T))) toOption sel
        = onOptionSelectedEffect (valuesOrDefault (some ([] : List T))) toOption sel ∧
      initState inputValue0 truthy initialValue toOption
          (selectOptions (none : Option (List T)) toOption)
        = initState inputValue0 truthy initialValue toOption
            (selectOptions (some []) toOption) ∧
      valuesOrDefault (none : Option (List T)) = ([] : List T) :=
  ⟨rfl, rfl, rfl, rfl, rfl, rfl⟩

/-- C9: after any event trace, a debounce wrapper has at most one pending
timer, the pending timer is the one held in `debounceRef`, a new invocation
leaves exactly its own freshly scheduled timer pending (the previous one
was cleared first), and any timer that is still pending — hence the only
one that can ever fire — carries the argument of the most recent
invocation in the trace. -/
theorem claim_C9_debounce {α : Type} (evs : List (DEvent α)) (a : α) :
    (runDebounce initDebounce evs).live.length ≤ 1 ∧
      (∀ p ∈ (runDebounce initDebounce evs).live,
        (runDebounce initDebounce evs).debounceRef = some p.1) ∧
      (debouncedCall (runDebounce initDebounce evs) a).live
        = [((runDebounce initDebounce evs).nextId, a)] ∧
      (∀ p ∈ (runDebounce initDebounce evs).live, lastInvokeArg evs = some p.2) ∧
      (∀ id b, (fireTimer (runDebounce initDebounce evs) id).2 = some b →
        lastInvokeArg evs = some b) := by
  obtain ⟨hinv, hlast⟩ := runDebounce_pending evs initDebounce debounceInv_init
  have hpend : ∀ p ∈ (runDebounce initDebounce evs).live,
      lastInvokeArg evs = some p.2 := by
    intro p hp
    rcases hlast p hp with h | ⟨_, hmem⟩
    · exact h
    · simp [initDebounce] at hmem
  refine ⟨hinv.1, hinv.2, debouncedCall_live _ a hinv, hpend, ?_⟩
  intro id b hb
  unfold fireTimer at hb
  cases hf : (runDebounce initDebounce evs).live.find? (fun p => p.1 == id) with
  | none => rw [hf] at hb; simp at hb
  | some q =>
      rw [hf] at hb
      simp at hb
      have hq : q ∈ (runDebounce initDebounce evs).live :=
        List.mem_of_find?_eq_some hf
      rw [← hb]
      exact hpend q hq

theorem claim_C9_debounce_witness :
    (runDebounce initDebounce
        [DEvent.invoke (0 : Nat), DEvent.invoke 1]).live.length ≤ 1 ∧
      lastInvokeArg [DEvent.invoke (0 : Nat), DEvent.invoke 1] = some 1 := by
  have h := claim_C9_debounce [DEvent.invoke (0 : Nat), DEvent.invoke 1] 0
  exact ⟨h.1, h.2.2.2.1 (1, 1) (by decide)⟩

/-- C10: with no initial default value, the initial selected option is the
head of the mapped option list (`undefined` for an empty or undefined
values list), and because `shouldUpdateInput` starts `true`, the first
resync overwrites the caller's input text with that option's label (the
empty string when there is no option). -/
theorem claim_C10_initial_selection {T : Type} (inputValue0 : Str)
    (truthy : T → Bool) (toOption : T → SelectOption) (values : Option (List T)) :
    (initState inputValue0 truthy none toOption
        (selectOptions values toOption)).selectedOption
      = (selectOptions values toOption).head? ∧
    (runResync (initState inputValue0 truthy none toOption
        (selectOptions values toOption))).inputValue
      = labelOf (selectOptions values toOption).head? ∧
    (selectOptions (none : Option (List T)) toOption).head? = none := by
  refine ⟨rfl, ?_, rfl⟩
  simp [runResync, initState, initSelectedOption]

end AccessibleSelect
